import Mathlib

/-!
Verification development for the PulseLink audio streaming server
(`src/Linux/server.py`).  The definitions below are a shallow embedding of
the receive path (sequence-number dedupe, client tracking, jitter-queue
push with drop-oldest policy), the playback path (int16 conversion,
IIR low-pass filter with threaded state, gain and clip), and the
`start`/`stop` lifecycle of `AudioServer`.
-/

namespace PulseLink

/-- Server lifecycle states, mirroring `ServerState` in server.py. -/
inductive ServerState
  | stopped
  | starting
  | running
  | stopping
deriving DecidableEq, Repr

/-- Client record, mirroring the `ClientInfo` dataclass: a remote address
(abstracted to a natural number), the time the client was last seen, and a
packet counter.  Timestamps are modelled as rationals. -/
structure ClientInfo where
  address : Nat
  last_seen : ℚ
  packet_count : Nat
deriving DecidableEq, Repr

/-- Callback events emitted by the server (state change, client connect,
client disconnect, error text).  Audio-level callbacks are not relevant to
any claim and are omitted. -/
inductive Event
  | stateChange (s : ServerState)
  | connect (c : ClientInfo)
  | disconnect (c : ClientInfo)
  | error (msg : String)
deriving DecidableEq, Repr

/-- An entry of the jitter queue `self._audio_queue`: either an audio
payload (a list of bytes) or the shutdown sentinel `None`. -/
abbrev QEntry := Option (List Nat)

/-- Big-endian parse of the first four bytes of a datagram, mirroring
`struct.unpack('>I', data[:4])[0]` at server.py line 192.  Only ever used
on datagrams of length at least 4. -/
def parseSeqBE (data : List Nat) : Nat :=
  match data with
  | b0 :: b1 :: b2 :: b3 :: _ => ((b0 * 256 + b1) * 256 + b2) * 256 + b3
  | _ => 0

/-- Dedupe test from server.py line 196:
`seq_num <= self._last_seq_num and self._last_seq_num - seq_num < 1000`.
`last_seq` is a Python int (initially `-1`), so it is modelled as `Int`;
the freshly parsed sequence number is an unsigned 32-bit value. -/
def dedupeReject (lastSeq : Int) (seq : Nat) : Bool :=
  decide ((seq : Int) ≤ lastSeq ∧ lastSeq - (seq : Int) < 1000)

/-- Eviction loop of the receiver (server.py lines 219-223):
`while self._audio_queue.qsize() >= 4: self._audio_queue.get_nowait()`.
Oldest entries (list head) are removed until fewer than four remain. -/
def evictOld : List QEntry → List QEntry
  | [] => []
  | x :: xs => if 4 ≤ (x :: xs).length then evictOld xs else x :: xs

/-- Model of `queue.Queue(maxsize=6).put_nowait(x)` with the surrounding
`try/except queue.Full: pass`: the entry is appended unless the queue
already holds `maxsize = 6` entries (server.py lines 62 and 224-227, and
the sentinel push at lines 151-154). -/
def putNowait (q : List QEntry) (x : QEntry) : List QEntry :=
  if 6 ≤ q.length then q else q ++ [x]

/-- Receiver-side push of an audio payload (server.py lines 219-227):
evict oldest entries while the queue holds 4 or more, then `put_nowait`. -/
def receiverPush (q : List QEntry) (payload : List Nat) : List QEntry :=
  putNowait (evictOld q) (some payload)

/-- Client bookkeeping for an accepted packet (server.py lines 200-216):
a missing client or a changed address emits a disconnect for the old
client (if any) followed by a connect for a fresh `ClientInfo` with
`packet_count = 1`; the same address just refreshes `last_seen` and bumps
`packet_count`. -/
def clientStep (client : Option ClientInfo) (addr : Nat) (now : ℚ) :
    Option ClientInfo × List Event :=
  match client with
  | none =>
    let newC : ClientInfo := ⟨addr, now, 1⟩
    (some newC, [Event.connect newC])
  | some c =>
    if c.address = addr then
      (some ⟨c.address, now, c.packet_count + 1⟩, [])
    else
      let newC : ClientInfo := ⟨addr, now, 1⟩
      (some newC, [Event.disconnect c, Event.connect newC])

/-- Client-timeout check run when the socket receive times out
(server.py lines 229-235): a current client not seen for more than 3.0
seconds is disconnected and cleared. -/
def timeoutStep (client : Option ClientInfo) (now : ℚ) :
    Option ClientInfo × List Event :=
  match client with
  | none => (none, [])
  | some c =>
    if 3 < now - c.last_seen then (none, [Event.disconnect c])
    else (some c, [])

/-- Receiver-loop state: `self._last_seq_num`, `self._current_client` and
the jitter queue. -/
structure RecvState where
  lastSeq : Int
  client : Option ClientInfo
  queue : List QEntry
deriving DecidableEq, Repr

/-- Processing of one received datagram (server.py lines 187-227).
Datagrams shorter than 4 bytes are dropped; rejected (duplicate/stale)
datagrams leave the state untouched; an accepted datagram updates
`last_seq`, runs the client bookkeeping, and pushes a non-empty payload
into the jitter queue.  The third component reports the payload pushed
into the queue, if any. -/
def receiveDatagram (st : RecvState) (data : List Nat) (addr : Nat) (now : ℚ) :
    RecvState × List Event × Option (List Nat) :=
  if data.length < 4 then (st, [], none)
  else
    let seq := parseSeqBE data
    let payload := data.drop 4
    if dedupeReject st.lastSeq seq then (st, [], none)
    else
      let cr := clientStep st.client addr now
      if payload.isEmpty then
        (⟨(seq : Int), cr.1, st.queue⟩, cr.2, none)
      else
        (⟨(seq : Int), cr.1, receiverPush st.queue payload⟩, cr.2, some payload)

/-- Decode of one little-endian signed 16-bit sample, as done by
`np.frombuffer(audio_data, dtype='<i2')` at server.py line 274. -/
def int16OfBytes (lo hi : Nat) : Int :=
  let u := lo + 256 * hi
  if u < 32768 then (u : Int) else (u : Int) - 65536

/-- Decode of a byte string into int16 samples (pairs of bytes,
little-endian), mirroring `np.frombuffer(audio_data, dtype='<i2')`. -/
def bytesToSamples : List Nat → List Int
  | lo :: hi :: rest => int16OfBytes lo hi :: bytesToSamples rest
  | _ => []

/-- Normalisation `audio_int16.astype(np.float32) / 32768.0` at
server.py line 275, with real arithmetic modelled over the rationals. -/
def toFloatSamples (bytes : List Nat) : List ℚ :=
  (bytesToSamples bytes).map (fun i => (i : ℚ) / 32768)

/-- Fixed volume gain `VOLUME_GAIN = 4.0` (server.py line 54). -/
def VOLUME_GAIN : ℚ := 4

/-- Gain and hard clip of one sample (server.py lines 287-288):
`audio_float * VOLUME_GAIN` followed by `np.clip(_, -1.0, 1.0)`, where
`np.clip(a, lo, hi) = min(hi, max(a, lo))`. -/
def gainClip (x : ℚ) : ℚ :=
  min 1 (max (x * VOLUME_GAIN) (-1))

/-- Coefficients of the order-2 IIR filter produced by
`signal.butter(2, cutoff/nyquist, btype='low')` (server.py line 80),
normalised so that the leading denominator coefficient is 1. -/
structure IIR2 where
  b0 : ℚ
  b1 : ℚ
  b2 : ℚ
  a1 : ℚ
  a2 : ℚ
deriving DecidableEq, Repr

/-- Internal state `zi` of the order-2 IIR filter (two delay cells of the
transposed direct-form-II realisation used by `scipy.signal.lfilter`). -/
structure FiltState where
  z1 : ℚ
  z2 : ℚ
deriving DecidableEq, Repr

/-- One sample of `scipy.signal.lfilter` for an order-2 section in
transposed direct form II:  `y = b0*x + z1`, then the delay cells are
updated to `z1 = b1*x - a1*y + z2` and `z2 = b2*x - a2*y`. -/
def lfilterStep (co : IIR2) (z : FiltState) (x : ℚ) : ℚ × FiltState :=
  let y := co.b0 * x + z.z1
  (y, ⟨co.b1 * x - co.a1 * y + z.z2, co.b2 * x - co.a2 * y⟩)

/-- Model of `signal.lfilter(b, a, xs, zi=z)` (server.py lines 279-282):
filters a whole chunk, returning the output samples and the final filter
state. -/
def lfilter (co : IIR2) : List ℚ → FiltState → List ℚ × FiltState
  | [], z => ([], z)
  | x :: xs, z =>
    let r := lfilterStep co z x
    let rest := lfilter co xs r.2
    (r.1 :: rest.1, rest.2)

/-- Chunk-by-chunk filtering with the state threaded from each chunk into
the next, exactly as the playback loop keeps reassigning `filter_zi`
(server.py lines 279-282 inside the `while` loop). -/
def lfilterChunks (co : IIR2) : List (List ℚ) → FiltState → List (List ℚ) × FiltState
  | [], z => ([], z)
  | c :: cs, z =>
    let r := lfilter co c z
    let rest := lfilterChunks co cs r.2
    (r.1 :: rest.1, rest.2)

/-- Full per-chunk playback processing (server.py lines 274-288): decode
int16, normalise, filter with the carried state, apply gain and clip. -/
def processChunk (co : IIR2) (z : FiltState) (bytes : List Nat) : List ℚ × FiltState :=
  let fr := lfilter co (toFloatSamples bytes) z
  (fr.1.map gainClip, fr.2)

/-- Playback processing of a whole sequence of chunks with the filter
state threaded between successive chunks, never reset (server.py
line 249 initialises `filter_zi` once, lines 279-282 rethread it). -/
def processChunks (co : IIR2) : List (List Nat) → FiltState → List ℚ × FiltState
  | [], z => ([], z)
  | c :: cs, z =>
    let r := processChunk co z c
    let rest := processChunks co cs r.2
    (r.1 ++ rest.1, rest.2)

/-- Model of `signal.lfilter_zi(b, a)` for an order-2 section
(server.py line 108): the steady-state filter state for a unit step
input, with DC gain `K = (b0+b1+b2)/(1+a1+a2)`. -/
def lfilterZi (co : IIR2) : FiltState :=
  let K := (co.b0 + co.b1 + co.b2) / (1 + co.a1 + co.a2)
  ⟨co.b1 + co.b2 - (co.a1 + co.a2) * K, co.b2 - co.a2 * K⟩

/-- The `AudioServer` fields relevant to the lifecycle claims:
`self.state`, `self._last_seq_num`, `self._filter_zi`, `self._running`,
`self._audio_queue` and `self._current_client`. -/
structure Server where
  state : ServerState
  lastSeq : Int
  filterZi : Option FiltState
  running : Bool
  queue : List QEntry
  client : Option ClientInfo
deriving DecidableEq, Repr

/-- Freshly constructed server (server.py lines 56-81). -/
def initServer : Server :=
  ⟨ServerState.stopped, -1, none, false, [], none⟩

/-- Model of `AudioServer.start` (server.py lines 102-141).  The socket
creation/bind/thread spawning inside the `try` block is abstracted by the
boolean `bindOk`.  Returns the new server state, the emitted events in
order, and the boolean return value. -/
def start (co : IIR2) (s : Server) (bindOk : Bool) : Server × List Event × Bool :=
  if s.state ≠ ServerState.stopped then (s, [], false)
  else if bindOk then
    (⟨ServerState.running, -1, some (lfilterZi co), true, s.queue, s.client⟩,
     [Event.stateChange ServerState.starting, Event.stateChange ServerState.running],
     true)
  else
    (⟨ServerState.stopped, -1, some (lfilterZi co), s.running, s.queue, s.client⟩,
     [Event.stateChange ServerState.starting, Event.stateChange ServerState.stopped,
      Event.error "Failed to start server"],
     false)

/-- Model of `AudioServer.stop` (server.py lines 143-179).  A no-op
unless the state is Running or Starting; otherwise: transition to
Stopping, clear the running flag, `put_nowait(None)` the sentinel (which
silently fails only on a full queue), drain the queue completely, clear
the client, transition to Stopped.  The third component counts the
sentinel entries that were actually pushed. -/
def stop (s : Server) : Server × List Event × Nat :=
  if s.state = ServerState.running ∨ s.state = ServerState.starting then
    let sentinelPushes := if 6 ≤ s.queue.length then 0 else 1
    (⟨ServerState.stopped, s.lastSeq, s.filterZi, false, [], none⟩,
     [Event.stateChange ServerState.stopping, Event.stateChange ServerState.stopped],
     sentinelPushes)
  else (s, [], 0)

/-- One scheduler event of the receiver/playback pipeline: either the
receive thread processes one datagram, or the playback thread performs
one `self._audio_queue.get(...)` attempt. -/
inductive SchedEv
  | recv (data : List Nat) (addr : Nat) (now : ℚ)
  | play
deriving DecidableEq, Repr

/-- Joint state of the two pipeline threads, instrumented with the list
of payloads the receiver pushed into the queue (`pushed`) and the list of
payloads the playback loop popped and handed to the filter stage
(`delivered`).  `sentinelSeen` records that the playback loop popped the
shutdown sentinel and exited (server.py lines 270-271). -/
structure PipeState where
  recvS : RecvState
  pushed : List (List Nat)
  delivered : List (List Nat)
  sentinelSeen : Bool
deriving DecidableEq, Repr

/-- One interleaving step of the pipeline.  A `recv` event runs the
receive path on one datagram; a `play` event pops the queue front (a
timeout on an empty queue delivers nothing; the sentinel stops the
playback loop). -/
def pipeStep (ps : PipeState) : SchedEv → PipeState
  | SchedEv.recv data addr now =>
    let r := receiveDatagram ps.recvS data addr now
    ⟨r.1, ps.pushed ++ r.2.2.toList, ps.delivered, ps.sentinelSeen⟩
  | SchedEv.play =>
    if ps.sentinelSeen then ps
    else
      match ps.recvS.queue with
      | [] => ps
      | entry :: rest =>
        let rs : RecvState := ⟨ps.recvS.lastSeq, ps.recvS.client, rest⟩
        match entry with
        | some p => ⟨rs, ps.pushed, ps.delivered ++ [p], false⟩
        | none => ⟨rs, ps.pushed, ps.delivered, true⟩

/-- Run of a whole scheduler trace. -/
def pipeRun (ps : PipeState) : List SchedEv → PipeState
  | [] => ps
  | e :: es => pipeRun (pipeStep ps e) es

/-- Pipeline state right after `start()`: `last_seq = -1`, no client,
empty queue, nothing pushed or delivered. -/
def initPipe : PipeState :=
  ⟨⟨-1, none, []⟩, [], [], false⟩

/-- The audio payloads currently buffered in the queue, oldest first
(with the sentinel, if any, ignored). -/
def queuedPayloads (q : List QEntry) : List (List Nat) :=
  q.filterMap id

/-- Does processing this datagram in this receiver state push a payload
into the jitter queue?  True iff the datagram is well-formed, survives the
dedupe check, and carries a non-empty payload. -/
def pushesPayload (rs : RecvState) (data : List Nat) : Bool :=
  decide (4 ≤ data.length) && !dedupeReject rs.lastSeq (parseSeqBE data)
    && !(data.drop 4).isEmpty

/-- A trace is eviction-free from `ps` when every datagram that pushes a
payload arrives while the queue holds fewer than 4 entries, so the
drop-oldest loop never fires. -/
def evictFree (ps : PipeState) : List SchedEv → Bool
  | [] => true
  | e :: es =>
    (match e with
     | SchedEv.recv data _ _ =>
       !pushesPayload ps.recvS data || decide (ps.recvS.queue.length < 4)
     | SchedEv.play => true)
    && evictFree (pipeStep ps e) es

/-- The eviction loop always leaves at most 3 entries. -/
theorem evictOld_length_le (q : List QEntry) : (evictOld q).length ≤ 3 := by
  induction q with
  | nil => simp [evictOld]
  | cons x xs ih =>
    rw [evictOld]
    split
    · exact ih
    · next hlt => omega

/-- The eviction loop removes only oldest entries: the surviving queue is
a sublist of the original. -/
theorem evictOld_sublist (q : List QEntry) : List.Sublist (evictOld q) q := by
  induction q with
  | nil => simp [evictOld]
  | cons x xs ih =>
    rw [evictOld]
    split
    · exact ih.trans (List.sublist_cons_self x xs)
    · exact List.Sublist.refl _

/-- Below the eviction threshold, the eviction loop does nothing. -/
theorem evictOld_eq_self (q : List QEntry) (h : q.length < 4) : evictOld q = q := by
  cases q with
  | nil => rfl
  | cons x xs =>
    rw [evictOld]
    split
    · next hle => omega
    · rfl

/-- A receiver push always appends the new payload after the eviction
loop, because at most 3 entries survive eviction and the capacity is 6. -/
theorem receiverPush_eq (q : List QEntry) (p : List Nat) :
    receiverPush q p = evictOld q ++ [some p] := by
  unfold receiverPush putNowait
  split
  · next hle =>
    exact absurd (le_trans hle (evictOld_length_le q)) (by omega)
  · rfl

/-- A receiver push leaves at most 4 entries in the queue. -/
theorem receiverPush_length_le (q : List QEntry) (p : List Nat) :
    (receiverPush q p).length ≤ 4 := by
  rw [receiverPush_eq]
  have := evictOld_length_le q
  simp only [List.length_append, List.length_cons, List.length_nil]
  omega

/-- Case analysis of the receive path as seen by the jitter queue: either
nothing is pushed and the queue is untouched, or exactly the (non-empty)
payload of the datagram is pushed via the eviction-then-put policy; and
this is governed by `pushesPayload`. -/
theorem receiveDatagram_queue_cases (st : RecvState) (data : List Nat) (addr : Nat) (now : ℚ) :
    ((receiveDatagram st data addr now).1.queue = st.queue ∧
      (receiveDatagram st data addr now).2.2 = none ∧
      pushesPayload st data = false) ∨
    ((receiveDatagram st data addr now).2.2 = some (data.drop 4) ∧
      (receiveDatagram st data addr now).1.queue = receiverPush st.queue (data.drop 4) ∧
      pushesPayload st data = true) := by
  unfold receiveDatagram pushesPayload
  split
  · next hlen =>
    left
    have hn : ¬ 4 ≤ data.length := by omega
    simp [hn]
  · next hlen =>
    dsimp only
    split
    · next hded =>
      left
      simp [hded]
    · next hded =>
      by_cases hemp : (data.drop 4).isEmpty
      · left
        simp [hemp, hded, hlen]
      · right
        have h4 : 4 ≤ data.length := by omega
        simp [hemp, hded, h4]

/-- Filtering a concatenation equals filtering the two parts in sequence
with the state threaded through: the defining algebraic fact behind
chunk-boundary continuity. -/
theorem lfilter_append (co : IIR2) (xs ys : List ℚ) (z : FiltState) :
    lfilter co (xs ++ ys) z =
      ((lfilter co xs z).1 ++ (lfilter co ys (lfilter co xs z).2).1,
       (lfilter co ys (lfilter co xs z).2).2) := by
  induction xs generalizing z with
  | nil => simp [lfilter]
  | cons x xs ih => simp [lfilter, ih]

/-- One pipeline step preserves the delivery invariant: the delivered
payloads followed by the still-buffered payloads form a sublist of all
pushed payloads. -/
theorem pipeStep_delivered_sub (ps : PipeState) (e : SchedEv)
    (h : List.Sublist (ps.delivered ++ queuedPayloads ps.recvS.queue) ps.pushed) :
    List.Sublist ((pipeStep ps e).delivered ++ queuedPayloads (pipeStep ps e).recvS.queue)
      (pipeStep ps e).pushed := by
  cases e with
  | recv data addr now =>
    rcases receiveDatagram_queue_cases ps.recvS data addr now with ⟨hq, hp, hpp⟩ | ⟨hp, hq, hpp⟩
    · simp only [pipeStep, hq, hp, Option.toList_none, List.append_nil]
      exact h
    · simp only [pipeStep, hq, hp, Option.toList_some, receiverPush_eq]
      have h1 : List.Sublist (ps.delivered ++ queuedPayloads (evictOld ps.recvS.queue))
          ps.pushed :=
        (((evictOld_sublist ps.recvS.queue).filterMap id).append_left ps.delivered).trans h
      have h2 := h1.append (List.Sublist.refl [data.drop 4])
      simpa [queuedPayloads, List.append_assoc] using h2
  | play =>
    by_cases hs : ps.sentinelSeen = true
    · simpa [pipeStep, hs] using h
    · cases hq : ps.recvS.queue with
      | nil => simpa [pipeStep, hs, hq] using h
      | cons entry rest =>
        rw [hq] at h
        cases entry with
        | some p =>
          simp only [pipeStep, hs, hq, Bool.false_eq_true, if_false]
          simpa [queuedPayloads, List.append_assoc] using h
        | none =>
          simp only [pipeStep, hs, hq, Bool.false_eq_true, if_false]
          simpa [queuedPayloads] using h

/-- The delivery invariant holds along any scheduler trace. -/
theorem pipeRun_delivered_sub (es : List SchedEv) (ps : PipeState)
    (h : List.Sublist (ps.delivered ++ queuedPayloads ps.recvS.queue) ps.pushed) :
    List.Sublist ((pipeRun ps es).delivered ++ queuedPayloads (pipeRun ps es).recvS.queue)
      (pipeRun ps es).pushed := by
  induction es generalizing ps with
  | nil => exact h
  | cons e es ih => exact ih _ (pipeStep_delivered_sub ps e h)

/-- On an eviction-free step the delivery invariant is an equality:
nothing is ever lost between the receiver and the playback loop. -/
theorem pipeStep_delivered_eq (ps : PipeState) (e : SchedEv)
    (hfree : (match e with
              | SchedEv.recv data _ _ =>
                !pushesPayload ps.recvS data || decide (ps.recvS.queue.length < 4)
              | SchedEv.play => true) = true)
    (h : ps.delivered ++ queuedPayloads ps.recvS.queue = ps.pushed) :
    (pipeStep ps e).delivered ++ queuedPayloads (pipeStep ps e).recvS.queue
      = (pipeStep ps e).pushed := by
  cases e with
  | recv data addr now =>
    rcases receiveDatagram_queue_cases ps.recvS data addr now with ⟨hq, hp, hpp⟩ | ⟨hp, hq, hpp⟩
    · simp only [pipeStep, hq, hp, Option.toList_none, List.append_nil]
      exact h
    · have hlt : ps.recvS.queue.length < 4 := by
        simp only [hpp, Bool.not_true, Bool.false_or, decide_eq_true_eq] at hfree
        exact hfree
      simp only [pipeStep, hq, hp, Option.toList_some, receiverPush_eq,
        evictOld_eq_self ps.recvS.queue hlt]
      rw [← h]
      simp [queuedPayloads, List.append_assoc]
  | play =>
    by_cases hs : ps.sentinelSeen = true
    · simpa [pipeStep, hs] using h
    · cases hq : ps.recvS.queue with
      | nil => simpa [pipeStep, hs, hq] using h
      | cons entry rest =>
        rw [hq] at h
        cases entry with
        | some p =>
          simp only [pipeStep, hs, hq, Bool.false_eq_true, if_false]
          simpa [queuedPayloads, List.append_assoc] using h
        | none =>
          simp only [pipeStep, hs, hq, Bool.false_eq_true, if_false]
          simpa [queuedPayloads] using h

/-- Along an eviction-free trace the delivery invariant stays an
equality. -/
theorem pipeRun_delivered_eq (es : List SchedEv) (ps : PipeState)
    (hfree : evictFree ps es = true)
    (h : ps.delivered ++ queuedPayloads ps.recvS.queue = ps.pushed) :
    (pipeRun ps es).delivered ++ queuedPayloads (pipeRun ps es).recvS.queue
      = (pipeRun ps es).pushed := by
  induction es generalizing ps with
  | nil => exact h
  | cons e es ih =>
    simp only [evictFree, Bool.and_eq_true] at hfree
    exact ih _ hfree.2 (pipeStep_delivered_eq ps e hfree.1 h)

/-- One pipeline step keeps the queue at no more than 4 entries. -/
theorem pipeStep_queue_le (ps : PipeState) (e : SchedEv)
    (h : ps.recvS.queue.length ≤ 4) :
    (pipeStep ps e).recvS.queue.length ≤ 4 := by
  cases e with
  | recv data addr now =>
    rcases receiveDatagram_queue_cases ps.recvS data addr now with ⟨hq, _, _⟩ | ⟨_, hq, _⟩
    · simpa [pipeStep, hq] using h
    · simp only [pipeStep, hq]
      exact receiverPush_length_le ps.recvS.queue (data.drop 4)
  | play =>
    by_cases hs : ps.sentinelSeen = true
    · simpa [pipeStep, hs] using h
    · cases hq : ps.recvS.queue with
      | nil => simp [pipeStep, hs, hq]
      | cons entry rest =>
        rw [hq] at h
        cases entry with
        | some p =>
          simp only [pipeStep, hs, hq, Bool.false_eq_true, if_false]
          simp only [List.length_cons] at h
          omega
        | none =>
          simp only [pipeStep, hs, hq, Bool.false_eq_true, if_false]
          simp only [List.length_cons] at h
          omega

/-- The queue holds at most 4 entries along any scheduler trace. -/
theorem pipeRun_queue_le (es : List SchedEv) (ps : PipeState)
    (h : ps.recvS.queue.length ≤ 4) :
    (pipeRun ps es).recvS.queue.length ≤ 4 := by
  induction es generalizing ps with
  | nil => exact h
  | cons e es ih => exact ih _ (pipeStep_queue_le ps e h)

/-- On an accepted datagram the receive path installs exactly the client
and events computed by the client bookkeeping step. -/
theorem receiveDatagram_accept_client (st : RecvState) (data : List Nat) (addr : Nat) (now : ℚ)
    (hlen : 4 ≤ data.length)
    (hacc : dedupeReject st.lastSeq (parseSeqBE data) = false) :
    (receiveDatagram st data addr now).1.client = (clientStep st.client addr now).1 ∧
    (receiveDatagram st data addr now).2.1 = (clientStep st.client addr now).2 := by
  have hn : ¬ data.length < 4 := by omega
  unfold receiveDatagram
  simp only [hn, if_false, hacc, Bool.false_eq_true]
  split
  · exact ⟨rfl, rfl⟩
  · exact ⟨rfl, rfl⟩

/-- On an accepted datagram the receive path records the parsed sequence
number as the new `last_seq`. -/
theorem receiveDatagram_accept_lastSeq (st : RecvState) (data : List Nat) (addr : Nat) (now : ℚ)
    (hlen : 4 ≤ data.length)
    (hacc : dedupeReject st.lastSeq (parseSeqBE data) = false) :
    (receiveDatagram st data addr now).1.lastSeq = (parseSeqBE data : Int) := by
  have hn : ¬ data.length < 4 := by omega
  unfold receiveDatagram
  simp only [hn, if_false, hacc, Bool.false_eq_true]
  split
  · rfl
  · rfl

/-- Claim C1: a well-formed datagram (at least 4 bytes) is dropped — state
untouched, no events, nothing queued — if and only if
`seq <= last_seq` and `last_seq - seq < 1000`; otherwise it is accepted and
`last_seq` becomes `seq`.  In particular `seq = last_seq` is dropped,
`seq < last_seq` with a gap below 1000 is dropped, and `seq < last_seq`
with a gap of at least 1000 is accepted. -/
theorem dedupe_policy_characterization (st : RecvState) (data : List Nat)
    (addr : Nat) (now : ℚ) (hlen : 4 ≤ data.length) :
    (dedupeReject st.lastSeq (parseSeqBE data) = true ↔
      ((parseSeqBE data : Int) ≤ st.lastSeq ∧
        st.lastSeq - (parseSeqBE data : Int) < 1000)) ∧
    (dedupeReject st.lastSeq (parseSeqBE data) = true →
      receiveDatagram st data addr now = (st, [], none)) ∧
    (dedupeReject st.lastSeq (parseSeqBE data) = false →
      (receiveDatagram st data addr now).1.lastSeq = (parseSeqBE data : Int)) ∧
    ((parseSeqBE data : Int) = st.lastSeq →
      dedupeReject st.lastSeq (parseSeqBE data) = true) ∧
    ((parseSeqBE data : Int) < st.lastSeq →
      st.lastSeq - (parseSeqBE data : Int) < 1000 →
      dedupeReject st.lastSeq (parseSeqBE data) = true) ∧
    ((parseSeqBE data : Int) < st.lastSeq →
      1000 ≤ st.lastSeq - (parseSeqBE data : Int) →
      dedupeReject st.lastSeq (parseSeqBE data) = false) := by
  have hn : ¬ data.length < 4 := by omega
  refine ⟨by simp [dedupeReject], ?_, ?_, ?_, ?_, ?_⟩
  · intro hded
    unfold receiveDatagram
    simp [hn, hded]
  · exact receiveDatagram_accept_lastSeq st data addr now hlen
  · intro heq
    simp only [dedupeReject, decide_eq_true_eq]
    omega
  · intro hlt hgap
    simp only [dedupeReject, decide_eq_true_eq]
    omega
  · intro hlt hgap
    simp only [dedupeReject, decide_eq_false_iff_not]
    omega

/-- Claim C1 witness: in a state with `last_seq = 5`, the datagram with
sequence number 4 (gap 1) is dropped without any effect. -/
theorem dedupe_policy_characterization_witness :
    receiveDatagram ⟨5, none, []⟩ [0, 0, 0, 4, 9] 7 0 = (⟨5, none, []⟩, [], none) :=
  (dedupe_policy_characterization ⟨5, none, []⟩ [0, 0, 0, 4, 9] 7 0 (by decide)).2.1
    (by decide)

/-- Claim C10: after `start()` resets `last_seq` to `-1`, every
well-formed datagram passes the dedupe check, whatever its unsigned
sequence number, because no natural number is at most `-1`. -/
theorem first_packet_always_accepted (co : IIR2) (s : Server) (b : Bool)
    (data : List Nat) (addr : Nat) (now : ℚ) (st : RecvState)
    (hstart : s.state = ServerState.stopped) (hlen : 4 ≤ data.length)
    (hinit : st.lastSeq = -1) :
    (start co s b).1.lastSeq = -1 ∧
    dedupeReject st.lastSeq (parseSeqBE data) = false ∧
    (receiveDatagram st data addr now).1.lastSeq = (parseSeqBE data : Int) := by
  have hded : dedupeReject st.lastSeq (parseSeqBE data) = false := by
    simp only [dedupeReject, decide_eq_false_iff_not, hinit]
    rintro ⟨h1, -⟩
    omega
  refine ⟨?_, hded, receiveDatagram_accept_lastSeq st data addr now hlen hded⟩
  unfold start
  simp only [hstart]
  cases b <;> simp

/-- Claim C10 witness: from a fresh receiver state, the datagram carrying
the largest 32-bit sequence number `4294967295` is accepted. -/
theorem first_packet_always_accepted_witness :
    (start ⟨1, 0, 0, 0, 0⟩ initServer true).1.lastSeq = -1 ∧
    dedupeReject (-1) (parseSeqBE [255, 255, 255, 255]) = false ∧
    (receiveDatagram ⟨-1, none, []⟩ [255, 255, 255, 255] 1 0).1.lastSeq
      = (parseSeqBE [255, 255, 255, 255] : Int) :=
  first_packet_always_accepted ⟨1, 0, 0, 0, 0⟩ initServer true
    [255, 255, 255, 255] 1 0 ⟨-1, none, []⟩ rfl (by decide) rfl

/-- Claim C4: an accepted packet from a fresh address (or with no current
client) emits a disconnect for the prior client if one existed followed by
a connect for a freshly created client with `packet_count = 1` and
`last_seen = now`, in that order; an accepted packet from the current
address emits no callback and only refreshes `last_seen`/`packet_count`. -/
theorem client_transition_events (st : RecvState) (data : List Nat) (addr : Nat) (now : ℚ)
    (hlen : 4 ≤ data.length)
    (hacc : dedupeReject st.lastSeq (parseSeqBE data) = false) :
    (st.client = none →
      (receiveDatagram st data addr now).2.1 = [Event.connect ⟨addr, now, 1⟩] ∧
      (receiveDatagram st data addr now).1.client = some ⟨addr, now, 1⟩) ∧
    (∀ c : ClientInfo, st.client = some c → c.address ≠ addr →
      (receiveDatagram st data addr now).2.1
        = [Event.disconnect c, Event.connect ⟨addr, now, 1⟩] ∧
      (receiveDatagram st data addr now).1.client = some ⟨addr, now, 1⟩) ∧
    (∀ c : ClientInfo, st.client = some c → c.address = addr →
      (receiveDatagram st data addr now).2.1 = [] ∧
      (receiveDatagram st data addr now).1.client
        = some ⟨c.address, now, c.packet_count + 1⟩) := by
  obtain ⟨hc, he⟩ := receiveDatagram_accept_client st data addr now hlen hacc
  refine ⟨?_, ?_, ?_⟩
  · intro hnone
    rw [he, hc, hnone]
    exact ⟨rfl, rfl⟩
  · intro c hsome hne
    rw [he, hc, hsome]
    simp [clientStep, hne]
  · intro c hsome heq
    rw [he, hc, hsome]
    simp [clientStep, heq]

/-- Claim C4 witness: with current client at address 1, an accepted packet
from address 2 emits exactly a disconnect for the old client followed by a
connect for the new one. -/
theorem client_transition_events_witness :
    (receiveDatagram ⟨-1, some ⟨1, 0, 5⟩, []⟩ [0, 0, 0, 1, 9] 2 7).2.1
      = [Event.disconnect ⟨1, 0, 5⟩, Event.connect ⟨2, 7, 1⟩] ∧
    (receiveDatagram ⟨-1, some ⟨1, 0, 5⟩, []⟩ [0, 0, 0, 1, 9] 2 7).1.client
      = some ⟨2, 7, 1⟩ :=
  (client_transition_events ⟨-1, some ⟨1, 0, 5⟩, []⟩ [0, 0, 0, 1, 9] 2 7
    (by decide) (by decide)).2.1 ⟨1, 0, 5⟩ rfl (by decide)

/-- Claim C7: when the current client has been silent for more than 3.0
seconds, the timeout check emits exactly one disconnect and clears the
client; once the client is `None`, further timeout checks emit nothing
(regardless of time), a still-live client is untouched, and the next
packet from any address produces a connect. -/
theorem idle_timeout_disconnect (c : ClientInfo) (now : ℚ)
    (h : 3 < now - c.last_seen) :
    timeoutStep (some c) now = (none, [Event.disconnect c]) ∧
    (∀ t : ℚ, timeoutStep none t = (none, [])) ∧
    (∀ (c2 : ClientInfo) (t : ℚ), ¬ 3 < t - c2.last_seen →
      timeoutStep (some c2) t = (some c2, [])) ∧
    (∀ (addr : Nat) (t : ℚ),
      clientStep none addr t = (some ⟨addr, t, 1⟩, [Event.connect ⟨addr, t, 1⟩])) := by
  refine ⟨?_, fun t => rfl, ?_, fun addr t => rfl⟩
  · simp [timeoutStep, h]
  · intro c2 t ht
    simp [timeoutStep, ht]

/-- Claim C7 witness: a client last seen at time 0, checked at time 3.5,
is disconnected and cleared. -/
theorem idle_timeout_disconnect_witness :
    timeoutStep (some ⟨1, 0, 5⟩) (7 / 2) = (none, [Event.disconnect ⟨1, 0, 5⟩]) :=
  (idle_timeout_disconnect ⟨1, 0, 5⟩ (7 / 2) (by norm_num)).1

/-- Claim C5: after filtering, each sample is scaled by the fixed gain 4.0
and hard-clipped to `[-1, 1]`: every output of the gain/clip stage lies in
`[-1, 1]`, any sample whose post-gain value reaches 1 clips to exactly 1,
any sample whose post-gain value reaches -1 clips to exactly -1, the
normalised full-scale samples do exactly that, and hence every sample a
processed chunk hands to the output stream lies in `[-1, 1]`. -/
theorem gain_clip_correctness :
    (∀ x : ℚ, -1 ≤ gainClip x ∧ gainClip x ≤ 1) ∧
    (∀ x : ℚ, 1 ≤ x * VOLUME_GAIN → gainClip x = 1) ∧
    (∀ x : ℚ, x * VOLUME_GAIN ≤ -1 → gainClip x = -1) ∧
    gainClip (32767 / 32768) = 1 ∧
    gainClip (-32768 / 32768) = -1 ∧
    (∀ (co : IIR2) (z : FiltState) (bytes : List Nat) (y : ℚ),
      y ∈ (processChunk co z bytes).1 → -1 ≤ y ∧ y ≤ 1) := by
  have hbounds : ∀ x : ℚ, -1 ≤ gainClip x ∧ gainClip x ≤ 1 := by
    intro x
    unfold gainClip
    exact ⟨le_min (by norm_num) (le_max_right _ _), min_le_left _ _⟩
  have hhi : ∀ x : ℚ, 1 ≤ x * VOLUME_GAIN → gainClip x = 1 := by
    intro x hx
    unfold gainClip
    exact min_eq_left (le_trans hx (le_max_left _ _))
  have hlo : ∀ x : ℚ, x * VOLUME_GAIN ≤ -1 → gainClip x = -1 := by
    intro x hx
    unfold gainClip
    rw [max_eq_right hx]
    exact min_eq_right (by norm_num)
  refine ⟨hbounds, hhi, hlo, ?_, ?_, ?_⟩
  · exact hhi _ (by norm_num [VOLUME_GAIN])
  · exact hlo _ (by norm_num [VOLUME_GAIN])
  · intro co z bytes y hy
    unfold processChunk at hy
    obtain ⟨x, -, hx⟩ := List.mem_map.mp hy
    rw [← hx]
    exact hbounds x

/-- Claim C5 witness: the normalised full-scale positive sample clips to
exactly 1, the full-scale negative sample to exactly -1, and a quiet
sample stays within bounds. -/
theorem gain_clip_correctness_witness :
    gainClip (32767 / 32768) = 1 ∧ gainClip (-32768 / 32768) = -1 ∧
    -1 ≤ gainClip (1 / 64) ∧ gainClip (1 / 64) ≤ 1 :=
  ⟨gain_clip_correctness.2.1 (32767 / 32768) (by norm_num [VOLUME_GAIN]),
   gain_clip_correctness.2.2.1 (-32768 / 32768) (by norm_num [VOLUME_GAIN]),
   (gain_clip_correctness.1 (1 / 64)).1,
   (gain_clip_correctness.1 (1 / 64)).2⟩

/-- Claim C6: the playback loop threads the IIR filter state from each
chunk into the next, so chunk-by-chunk filtering with the carried state
produces exactly the output samples and final state of filtering the
concatenation in one call from the same initial state; likewise the full
per-chunk playback processing (decode, filter, gain, clip) agrees with a
single filter pass over the concatenated sample stream. -/
theorem filter_state_threading (co : IIR2) (chunks : List (List ℚ)) (z : FiltState) :
    ((lfilterChunks co chunks z).1).flatten = (lfilter co chunks.flatten z).1 ∧
    (lfilterChunks co chunks z).2 = (lfilter co chunks.flatten z).2 ∧
    (∀ (bchunks : List (List Nat)) (z0 : FiltState),
      (processChunks co bchunks z0).1
        = ((lfilter co ((bchunks.map toFloatSamples).flatten) z0).1).map gainClip ∧
      (processChunks co bchunks z0).2
        = (lfilter co ((bchunks.map toFloatSamples).flatten) z0).2) := by
  have hmain : ∀ (cs : List (List ℚ)) (z1 : FiltState),
      ((lfilterChunks co cs z1).1).flatten = (lfilter co cs.flatten z1).1 ∧
      (lfilterChunks co cs z1).2 = (lfilter co cs.flatten z1).2 := by
    intro cs
    induction cs with
    | nil => intro z1; simp [lfilterChunks, lfilter]
    | cons c cs ih =>
      intro z1
      obtain ⟨ho, hs⟩ := ih (lfilter co c z1).2
      simp only [lfilterChunks, List.flatten_cons, lfilter_append]
      exact ⟨by rw [ho], hs⟩
  have hproc : ∀ (bchunks : List (List Nat)) (z0 : FiltState),
      (processChunks co bchunks z0).1
        = ((lfilter co ((bchunks.map toFloatSamples).flatten) z0).1).map gainClip ∧
      (processChunks co bchunks z0).2
        = (lfilter co ((bchunks.map toFloatSamples).flatten) z0).2 := by
    intro bchunks
    induction bchunks with
    | nil => intro z0; simp [processChunks, lfilter]
    | cons c cs ih =>
      intro z0
      obtain ⟨ho, hs⟩ := ih (lfilter co (toFloatSamples c) z0).2
      simp only [processChunks, processChunk, List.map_cons, List.flatten_cons]
      rw [lfilter_append]
      constructor
      · simp only [List.map_append]
        rw [ho]
      · exact hs
  exact ⟨(hmain chunks z).1, (hmain chunks z).2, hproc⟩

/-- When the eviction loop fires (queue at 4 or more), it stops at exactly
3 surviving entries. -/
theorem evictOld_length_eq (q : List QEntry) (h : 4 ≤ q.length) :
    (evictOld q).length = 3 := by
  induction q with
  | nil => simp at h
  | cons x xs ih =>
    rw [evictOld]
    split
    · next h4 =>
      by_cases hx : 4 ≤ xs.length
      · exact ih hx
      · rw [evictOld_eq_self xs (by omega)]
        simp only [List.length_cons] at h
        omega
    · next h4 =>
      exact absurd h h4

/-- Claim C3: the jitter queue never exceeds its configured capacity of 6
along any interleaving; a receiver push leaves at most 4 entries; the
payload just pushed is always the newest (last) entry of the queue; a push
into a queue at the 4-entry threshold evicts oldest entries down to 3 and
then appends; and `put_nowait` never grows a queue beyond capacity 6. -/
theorem jitter_queue_capacity :
    (∀ es : List SchedEv, ((pipeRun initPipe es).recvS.queue).length ≤ 6) ∧
    (∀ (q : List QEntry) (p : List Nat), (receiverPush q p).length ≤ 4) ∧
    (∀ (q : List QEntry) (p : List Nat), (receiverPush q p).getLast? = some (some p)) ∧
    (∀ (q : List QEntry) (p : List Nat), 4 ≤ q.length →
      receiverPush q p = evictOld q ++ [some p] ∧ (evictOld q).length = 3) ∧
    (∀ (q : List QEntry) (x : QEntry), q.length ≤ 6 → (putNowait q x).length ≤ 6) := by
  refine ⟨?_, receiverPush_length_le, ?_, ?_, ?_⟩
  · intro es
    have h := pipeRun_queue_le es initPipe (by simp [initPipe])
    omega
  · intro q p
    rw [receiverPush_eq]
    exact List.getLast?_concat _
  · intro q p h
    exact ⟨receiverPush_eq q p, evictOld_length_eq q h⟩
  · intro q x h
    unfold putNowait
    split
    · exact h
    · next h6 =>
      simp only [List.length_append, List.length_cons, List.length_nil]
      omega

/-- Claim C3 witness: pushing payload `[9]` into a queue already holding 4
payloads evicts down to 3 and appends, keeping the newest payload as the
last entry, within capacity. -/
theorem jitter_queue_capacity_witness :
    receiverPush [some [1], some [2], some [3], some [4]] [9]
      = evictOld [some [1], some [2], some [3], some [4]] ++ [some [9]] ∧
    (evictOld [some [1], some [2], some [3], some [4]]).length = 3 :=
  jitter_queue_capacity.2.2.2.1 [some [1], some [2], some [3], some [4]] [9] (by decide)

/-- A five-packet burst with strictly increasing sequence numbers 1..5 and
distinct one-byte payloads, processed entirely before the playback thread
runs, followed by five playback pops. -/
def burstTrace : List SchedEv :=
  [SchedEv.recv [0, 0, 0, 1, 101] 1 0, SchedEv.recv [0, 0, 0, 2, 102] 1 0,
   SchedEv.recv [0, 0, 0, 3, 103] 1 0, SchedEv.recv [0, 0, 0, 4, 104] 1 0,
   SchedEv.recv [0, 0, 0, 5, 105] 1 0,
   SchedEv.play, SchedEv.play, SchedEv.play, SchedEv.play, SchedEv.play]

/-- Claim C2 counterexample: under strictly increasing sequence numbers
1..5 with non-empty payloads, the burst interleaving pushes all five
payloads but the drop-oldest eviction discards payload `[101]` before the
playback loop ever pops it: only four payloads reach the filter stage and
the queue is empty afterwards, so `[101]` is lost — deliveries are not
exactly-once. -/
theorem delivery_exactly_once_counterexample :
    (pipeRun initPipe burstTrace).pushed = [[101], [102], [103], [104], [105]] ∧
    (pipeRun initPipe burstTrace).delivered = [[102], [103], [104], [105]] ∧
    (pipeRun initPipe burstTrace).recvS.queue = [] ∧
    ¬ [101] ∈ (pipeRun initPipe burstTrace).delivered := by
  refine ⟨?_, ?_, ?_, ?_⟩ <;> decide

/-- Claim C2 (amended): between acceptance and filtering no payload is
duplicated or reordered — the delivered payloads always form a sublist of
the pushed payloads; and every pushed payload is delivered exactly once
provided the queue never holds 4 or more entries when a payload arrives
(so the drop-oldest eviction never fires) and the queue is drained; under
strictly increasing sequence numbers every well-formed non-empty payload
is indeed pushed. -/
theorem delivery_order_amended (es : List SchedEv) :
    List.Sublist (pipeRun initPipe es).delivered (pipeRun initPipe es).pushed ∧
    (evictFree initPipe es = true → (pipeRun initPipe es).recvS.queue = [] →
      (pipeRun initPipe es).delivered = (pipeRun initPipe es).pushed) ∧
    (∀ (rs : RecvState) (data : List Nat) (addr : Nat) (now : ℚ),
      4 ≤ data.length → rs.lastSeq < (parseSeqBE data : Int) →
      (data.drop 4).isEmpty = false →
      (receiveDatagram rs data addr now).2.2 = some (data.drop 4)) := by
  have hinit : (initPipe.delivered ++ queuedPayloads initPipe.recvS.queue) = initPipe.pushed := by
    simp [initPipe, queuedPayloads]
  refine ⟨?_, ?_, ?_⟩
  · have h := pipeRun_delivered_sub es initPipe (by rw [hinit])
    exact (List.sublist_append_left _ _).trans h
  · intro hfree hq
    have h := pipeRun_delivered_eq es initPipe hfree hinit
    rw [hq] at h
    simpa [queuedPayloads] using h
  · intro rs data addr now hlen hlt hne
    have hded : dedupeReject rs.lastSeq (parseSeqBE data) = false := by
      simp only [dedupeReject, decide_eq_false_iff_not]
      rintro ⟨h1, -⟩
      omega
    rcases receiveDatagram_queue_cases rs data addr now with ⟨-, -, hpp⟩ | ⟨hp, -, -⟩
    · rw [pushesPayload, hded, hne] at hpp
      simp [hlen] at hpp
    · exact hp

/-- Claim C2 witness: a single accepted packet followed by one pop is
eviction-free and drains the queue, so delivered = pushed. -/
theorem delivery_order_amended_witness :
    (pipeRun initPipe [SchedEv.recv [0, 0, 0, 1, 7] 1 0, SchedEv.play]).delivered
      = (pipeRun initPipe [SchedEv.recv [0, 0, 0, 1, 7] 1 0, SchedEv.play]).pushed :=
  (delivery_order_amended [SchedEv.recv [0, 0, 0, 1, 7] 1 0, SchedEv.play]).2.1
    (by decide) (by decide)

/-- Claim C8: `start()` fails and changes nothing unless the state is
Stopped.  From Stopped it resets `last_seq` to -1 and the filter state,
and either (bind success) reaches Running and returns True having emitted
the Starting and Running state changes, or (bind failure) reports the
error, returns to Stopped and returns False. -/
theorem start_lifecycle (co : IIR2) (s : Server) (b : Bool) :
    (s.state ≠ ServerState.stopped → start co s b = (s, [], false)) ∧
    (s.state = ServerState.stopped →
      (start co s b).1.lastSeq = -1 ∧
      (start co s b).1.filterZi = some (lfilterZi co) ∧
      (b = true →
        (start co s b).1.state = ServerState.running ∧
        (start co s b).1.running = true ∧
        (start co s b).2.2 = true ∧
        (start co s b).2.1 = [Event.stateChange ServerState.starting,
                              Event.stateChange ServerState.running]) ∧
      (b = false →
        (start co s b).1.state = ServerState.stopped ∧
        (start co s b).2.2 = false ∧
        (start co s b).2.1 = [Event.stateChange ServerState.starting,
                              Event.stateChange ServerState.stopped,
                              Event.error "Failed to start server"])) := by
  constructor
  · intro h
    unfold start
    simp [h]
  · intro h
    unfold start
    cases b <;> simp [h]

/-- Claim C8 witness: starting a fresh stopped server with a successful
bind reaches Running and returns True; starting it with a failed bind
returns to Stopped and returns False. -/
theorem start_lifecycle_witness :
    (start ⟨1, 0, 0, 0, 0⟩ initServer true).1.state = ServerState.running ∧
    (start ⟨1, 0, 0, 0, 0⟩ initServer true).2.2 = true ∧
    (start ⟨1, 0, 0, 0, 0⟩ initServer false).1.state = ServerState.stopped ∧
    (start ⟨1, 0, 0, 0, 0⟩ initServer false).2.2 = false :=
  ⟨(((start_lifecycle ⟨1, 0, 0, 0, 0⟩ initServer true).2 rfl).2.2.1 rfl).1,
   (((start_lifecycle ⟨1, 0, 0, 0, 0⟩ initServer true).2 rfl).2.2.1 rfl).2.2.1,
   (((start_lifecycle ⟨1, 0, 0, 0, 0⟩ initServer false).2 rfl).2.2.2 rfl).1,
   (((start_lifecycle ⟨1, 0, 0, 0, 0⟩ initServer false).2 rfl).2.2.2 rfl).2.1⟩

/-- Claim C9: `stop()` is a no-op unless the state is Running or Starting;
otherwise it clears the running flag, pushes the shutdown sentinel exactly
once (its `put_nowait` succeeds whenever the queue is below capacity, as
the receiver's push policy guarantees), and completes with state Stopped,
an empty queue and no current client, emitting the Stopping and then the
Stopped state-change events. -/
theorem stop_lifecycle (s : Server) :
    (s.state ≠ ServerState.running → s.state ≠ ServerState.starting →
      stop s = (s, [], 0)) ∧
    (s.state = ServerState.running ∨ s.state = ServerState.starting →
      (stop s).1.state = ServerState.stopped ∧
      (stop s).1.running = false ∧
      (stop s).1.queue = [] ∧
      (stop s).1.client = none ∧
      (stop s).2.1 = [Event.stateChange ServerState.stopping,
                      Event.stateChange ServerState.stopped] ∧
      (s.queue.length < 6 → (stop s).2.2 = 1)) := by
  constructor
  · intro h1 h2
    unfold stop
    simp [h1, h2]
  · intro h
    unfold stop
    simp only [h, if_true]
    refine ⟨trivial, trivial, trivial, trivial, trivial, ?_⟩
    intro hlen
    split
    · next h6 => omega
    · rfl

/-- Claim C9 witness: stopping a running server with one buffered payload
pushes the sentinel once and ends Stopped with an empty queue and no
client. -/
theorem stop_lifecycle_witness :
    (stop ⟨ServerState.running, 5, none, true, [some [1]], none⟩).1.state
      = ServerState.stopped ∧
    (stop ⟨ServerState.running, 5, none, true, [some [1]], none⟩).1.queue = [] ∧
    (stop ⟨ServerState.running, 5, none, true, [some [1]], none⟩).2.2 = 1 :=
  ⟨((stop_lifecycle ⟨ServerState.running, 5, none, true, [some [1]], none⟩).2
      (Or.inl rfl)).1,
   ((stop_lifecycle ⟨ServerState.running, 5, none, true, [some [1]], none⟩).2
      (Or.inl rfl)).2.2.1,
   ((stop_lifecycle ⟨ServerState.running, 5, none, true, [some [1]], none⟩).2
      (Or.inl rfl)).2.2.2.2.2 (by decide)⟩

end PulseLink
